import Mathlib

/-
Verification of the WKM integrator step-composition layer
(src/src/integrator_wkm.c, rebound's Wisdom Kernel Method integrator).

The embedding models machine doubles as exact rationals.  The primitive
operators (Kepler drift, centre-of-mass drift, interaction kick, the
Jacobi/inertial coordinate transforms, the force evaluator and the whfast
initialisation routine) are external collaborators living outside this
file's source; they are abstracted as parameters acting on the two
particle arrays only, as their contracts in the specification prescribe.
Every application of a primitive is additionally recorded in an event
trace so that the operator sequences the integrator performs are
directly observable.
-/

/-- A particle record mirroring struct reb_particle: mass, position,
velocity and acceleration components. -/
structure Particle where
  m : ℚ
  x : ℚ
  y : ℚ
  z : ℚ
  vx : ℚ
  vy : ℚ
  vz : ℚ
  ax : ℚ
  ay : ℚ
  az : ℚ
deriving DecidableEq

/-- The all-zero particle, used as a default value. -/
def pZero : Particle := ⟨0, 0, 0, 0, 0, 0, 0, 0, 0, 0⟩

instance : Inhabited Particle := ⟨pZero⟩

/-- The whfast coordinate-scheme selector (REB_WHFAST_COORDINATES_...). -/
inductive Coords where
  | jacobi
  | democraticheliocentric
  | whds
deriving DecidableEq

/-- Observable operator applications: each constructor records one call of a
primitive operator (with its time coefficient where it has one), or one
reported error. -/
inductive Event where
  | kepler (a : ℚ)
  | com (a : ℚ)
  | kick (b : ℚ)
  | j2iPos
  | j2iPosvel
  | i2jAcc
  | updAcc
  | fromInertial
  | toInertial
  | errorReport (code : ℕ)
deriving DecidableEq

/-- The two particle arrays the primitive operators act on: the inertial
array `r->particles` and the Jacobi Coordinate Buffer `ri_whfast.p_jh`. -/
structure Phys where
  particles : List Particle
  p_jh : List Particle
deriving DecidableEq

/-- Modelled from the spec: the primitive drift/kick operators, coordinate
transforms, force evaluator and whfast initialisation are external
collaborators (spec section 6); they are abstracted as functions on the
particle arrays.  `sqrtFn` abstracts the C library sqrt.  `corrTerms`
abstracts the 11-entry coefficient table of the external
`reb_whfast_apply_corrector` routine (spec section 4.3), which is internal
to the whfast module. -/
structure Prims where
  keplerStep : ℚ → Phys → Phys
  comStep : ℚ → Phys → Phys
  interactionStep : ℚ → Phys → Phys
  jacobiToInertialPos : Phys → Phys
  jacobiToInertialPosvel : Phys → Phys
  inertialToJacobiAcc : Phys → Phys
  updateAcceleration : Phys → Phys
  fromInertial : Phys → Phys
  toInertial : Phys → Phys
  whfastInit : Phys → Option Phys
  sqrtFn : ℚ → ℚ
  corrTerms : Fin 11 → ℚ × ℚ

/-- The simulation state visible to the WKM layer: the particle arrays, the
scratch buffer `ri_wkm.temp_pj`, the scalar simulation fields, the WKM and
whfast configuration flags, a flag recording whether the Coordinate Buffer
pointer is non-NULL, and the ghost event trace. -/
structure State where
  phys : Phys
  temp_pj : List Particle
  t : ℚ
  dt : ℚ
  dt_last_done : ℚ
  G : ℚ
  corrector : ℕ
  safe_mode : Bool
  is_synchronized : Bool
  coordinates : Coords
  keep_unsynchronized : Bool
  recalculate_coordinates_this_timestep : Bool
  gravity_ignore_terms : ℕ
  var_config_N : ℕ
  allocated_N : ℕ
  p_jh_present : Bool
  trace : List Event
deriving DecidableEq

/-- Append an event to the trace without touching anything else. -/
def emit (e : Event) (s : State) : State := { s with trace := s.trace ++ [e] }

/-- Call `reb_whfast_kepler_step(r, a)`: orbital drift on the buffers plus
its trace record. -/
def doKepler (P : Prims) (a : ℚ) (s : State) : State :=
  { s with phys := P.keplerStep a s.phys, trace := s.trace ++ [Event.kepler a] }

/-- Call `reb_whfast_com_step(r, a)`: centre-of-mass drift. -/
def doCom (P : Prims) (a : ℚ) (s : State) : State :=
  { s with phys := P.comStep a s.phys, trace := s.trace ++ [Event.com a] }

/-- Call `reb_whfast_interaction_step(r, b)`: interaction kick. -/
def doKick (P : Prims) (b : ℚ) (s : State) : State :=
  { s with phys := P.interactionStep b s.phys, trace := s.trace ++ [Event.kick b] }

/-- Call `reb_transformations_jacobi_to_inertial_pos`. -/
def doJ2iPos (P : Prims) (s : State) : State :=
  { s with phys := P.jacobiToInertialPos s.phys, trace := s.trace ++ [Event.j2iPos] }

/-- Call `reb_transformations_jacobi_to_inertial_posvel`. -/
def doJ2iPosvel (P : Prims) (s : State) : State :=
  { s with phys := P.jacobiToInertialPosvel s.phys, trace := s.trace ++ [Event.j2iPosvel] }

/-- Call `reb_transformations_inertial_to_jacobi_acc`. -/
def doI2jAcc (P : Prims) (s : State) : State :=
  { s with phys := P.inertialToJacobiAcc s.phys, trace := s.trace ++ [Event.i2jAcc] }

/-- Call `reb_update_acceleration(r)`: force evaluation. -/
def doUpdAcc (P : Prims) (s : State) : State :=
  { s with phys := P.updateAcceleration s.phys, trace := s.trace ++ [Event.updAcc] }

/-- Call `reb_integrator_whfast_from_inertial(r)`. -/
def doFromInertial (P : Prims) (s : State) : State :=
  { s with phys := P.fromInertial s.phys, trace := s.trace ++ [Event.fromInertial] }

/-- Call `reb_integrator_whfast_to_inertial(r)`. -/
def doToInertial (P : Prims) (s : State) : State :=
  { s with phys := P.toInertial s.phys, trace := s.trace ++ [Event.toInertial] }

/-- Source: `reb_wkm_corrector_Z` (integrator_wkm.c lines 46-59). -/
def reb_wkm_corrector_Z (P : Prims) (a b : ℚ) (s : State) : State :=
  doKepler P a s |> doJ2iPos P |> doUpdAcc P |> doKick P (-b) |> doKepler P (-2 * a)
    |> doJ2iPos P |> doUpdAcc P |> doKick P b |> doKepler P a

/-- Source: `reb_wkm_apply_C` (lines 60-73). -/
def reb_wkm_apply_C (P : Prims) (a b : ℚ) (s : State) : State :=
  doKepler P a s |> doCom P a |> doJ2iPos P |> doUpdAcc P |> doKick P b
    |> doKepler P (-a) |> doCom P (-a)

/-- Source: `reb_wkm_apply_Y` (lines 75-78). -/
def reb_wkm_apply_Y (P : Prims) (a b : ℚ) (s : State) : State :=
  reb_wkm_apply_C P (-a) (-b) (reb_wkm_apply_C P a b s)

/-- Source: `reb_wkm_apply_U` (lines 79-86). -/
def reb_wkm_apply_U (P : Prims) (a b : ℚ) (s : State) : State :=
  doKepler P a s |> doCom P a |> reb_wkm_apply_Y P a b |> reb_wkm_apply_Y P a (-b)
    |> doKepler P (-a) |> doCom P (-a)

/-- Source: `reb_wkm_apply_corrector2` (lines 87-92). -/
def reb_wkm_apply_corrector2 (P : Prims) (dt : ℚ) (s : State) : State :=
  let a := 0.5 * dt
  let b := 0.03486083443891981449909050107438281205803 * dt
  reb_wkm_apply_U P (-a) b (reb_wkm_apply_U P a b s)

/-- The coefficient table of the external corrector routine, as a list. -/
def corrTermList (P : Prims) : List (ℚ × ℚ) := (List.finRange 11).map P.corrTerms

/-- Modelled from the spec: `reb_whfast_apply_corrector(r, inv, 11, Z)` lives
in the external whfast module; per spec section 4.3 it applies a fixed
11-term antisymmetric composition of the kernel `Z`, with the sign `inv`
making the layer self-inverse.  The coefficient table is abstracted as
`P.corrTerms`; `inv` scales each kick coefficient. -/
def reb_whfast_apply_corrector (P : Prims) (inv : ℚ) (s : State) : State :=
  (corrTermList P).foldl (fun s2 ab => reb_wkm_corrector_Z P ab.1 (inv * ab.2) s2) s

/-- Corrector layers applied before the step when synchronized
(source lines 123-128). -/
def wkmPreCorrectors (P : Prims) (corrector : ℕ) (s : State) : State :=
  if corrector ≠ 0 then
    let s2 := reb_whfast_apply_corrector P 1 s
    if corrector ≥ 2 then reb_wkm_apply_corrector2 P s2.dt s2 else s2
  else s

/-- Kernel-specific leading drift of part1 (source lines 129-135). -/
def wkmLeadingDrift (P : Prims) (kernel : ℕ) (s : State) : State :=
  if kernel = 0 then
    doCom P (5 / 8 * s.dt) (doKepler P (5 / 8 * s.dt) s)
  else if kernel = 1 then
    doCom P (1 / 2 * s.dt) (doKepler P (1 / 2 * s.dt) s)
  else s

/-- Source: `reb_integrator_wkm_part1` (lines 94-142). -/
def reb_integrator_wkm_part1 (P : Prims) (s0 : State) : State :=
  let corrector := s0.corrector % 10
  let kernel := s0.corrector / 10
  let s := { s0 with gravity_ignore_terms := 1 }
  if s.var_config_N > 0 ∧ s.coordinates ≠ Coords.jacobi then
    emit (Event.errorReport 0) s
  else if s.coordinates ≠ Coords.jacobi then
    emit (Event.errorReport 1) s
  else if kernel > 1 then
    emit (Event.errorReport 2) s
  else
    match P.whfastInit s.phys with
    | none => s
    | some ph =>
      let s1 := { s with phys := ph, p_jh_present := true }
      let s2 :=
        if s1.safe_mode || s1.recalculate_coordinates_this_timestep then
          { doFromInertial P s1 with recalculate_coordinates_this_timestep := false }
        else s1
      let s3 :=
        if s2.is_synchronized then
          wkmLeadingDrift P kernel (wkmPreCorrectors P corrector s2)
        else
          doCom P s2.dt (doKepler P s2.dt s2)
      doToInertial P s3

/-- Kernel-specific trailing drift of synchronize (source lines 157-163). -/
def wkmTrailingDrift (P : Prims) (kernel : ℕ) (s : State) : State :=
  if kernel = 0 then
    doCom P (3 / 8 * s.dt) (doKepler P (3 / 8 * s.dt) s)
  else if kernel = 1 then
    doCom P (1 / 2 * s.dt) (doKepler P (1 / 2 * s.dt) s)
  else s

/-- Corrector layers applied after the step with inverted signs
(source lines 165-170). -/
def wkmPostCorrectors (P : Prims) (corrector : ℕ) (s : State) : State :=
  if corrector ≠ 0 then
    let s2 := reb_whfast_apply_corrector P (-1) s
    if corrector ≥ 2 then reb_wkm_apply_corrector2 P (-s2.dt) s2 else s2
  else s

/-- Source: `reb_integrator_wkm_synchronize` (lines 144-179).  The snapshot
`sync_pj` is taken with malloc+memcpy only under the keep-unsynchronized
policy in the C code; since the model is pure, binding it unconditionally
and using it only under the same flag yields the same result. -/
def reb_integrator_wkm_synchronize (P : Prims) (s0 : State) : State :=
  let corrector := s0.corrector % 10
  let kernel := s0.corrector / 10
  if s0.is_synchronized then s0
  else
    let s := { s0 with gravity_ignore_terms := 1 }
    let sync_pj := s.phys.p_jh
    let s1 := wkmTrailingDrift P kernel s
    let s2 := wkmPostCorrectors P corrector s1
    let s3 := doJ2iPosvel P s2
    if s3.keep_unsynchronized then
      { s3 with phys := { s3.phys with p_jh := sync_pj } }
    else
      { s3 with is_synchronized := true }

/-- The WHT Eq 10.6 loop of the lazy-implementer kernel (source lines
256-272): walks the Jacobi particles with index `i ≥ 1` in step with the
scratch-buffer copies, accumulating the running mass `eta`, adding the
indirect `G*eta/r^3` acceleration term into the scratch entry for `i > 1`,
and displacing each Jacobi position by `dt*dt/12` times the corrected
acceleration.  Returns the updated Jacobi tail and scratch tail. -/
def whtLoop (sq : ℚ → ℚ) (G dt : ℚ) : ℕ → ℚ → List Particle → List Particle →
    List Particle × List Particle
  | _, _, [], tps => ([], tps)
  | _, _, pjs, [] => (pjs, [])
  | i, eta, pji :: pjs, tpi :: tps =>
    let eta2 := eta + pji.m
    let prefac1 := dt * dt / 12
    let tpi2 :=
      if 1 < i then
        let rj2i := 1 / (pji.x * pji.x + pji.y * pji.y + pji.z * pji.z)
        let rji := sq rj2i
        let rj3iM := rji * rj2i * G * eta2
        { tpi with ax := tpi.ax + rj3iM * tpi.x, ay := tpi.ay + rj3iM * tpi.y,
                   az := tpi.az + rj3iM * tpi.z }
      else tpi
    let pji2 := { pji with x := pji.x + prefac1 * tpi2.ax, y := pji.y + prefac1 * tpi2.ay,
                           z := pji.z + prefac1 * tpi2.az }
    let rest := whtLoop sq G dt (i + 1) eta2 pjs tps
    (pji2 :: rest.1, tpi2 :: rest.2)

/-- The position-reset loop of the lazy-implementer kernel (source lines
279-284): for every index `i ≥ 1`, copy the scratch-buffer position back
into the Jacobi buffer, leaving all other fields alone. -/
def restorePositions : ℕ → List Particle → List Particle → List Particle
  | _, [], _ => []
  | _, pjs, [] => pjs
  | i, pji :: pjs, tpi :: tps =>
    let pji2 := if 1 ≤ i then { pji with x := tpi.x, y := tpi.y, z := tpi.z } else pji
    pji2 :: restorePositions (i + 1) pjs tps

/-- Composition kernel body of part2 (source lines 192-232). -/
def wkmKernel0 (P : Prims) (s0 : State) : State :=
  doKick P (-1 / 6 * s0.dt) s0
    |> doKepler P (-1 / 4 * s0.dt) |> doCom P (-1 / 4 * s0.dt)
    |> doJ2iPos P |> doUpdAcc P |> doKick P (1 / 6 * s0.dt)
    |> doKepler P (1 / 8 * s0.dt) |> doCom P (1 / 8 * s0.dt)
    |> doJ2iPos P |> doUpdAcc P |> doKick P s0.dt
    |> doKepler P (-1 / 8 * s0.dt) |> doCom P (-1 / 8 * s0.dt)
    |> doJ2iPos P |> doUpdAcc P |> doKick P (-1 / 6 * s0.dt)
    |> doKepler P (1 / 4 * s0.dt) |> doCom P (1 / 4 * s0.dt)
    |> doJ2iPos P |> doUpdAcc P |> doKick P (1 / 6 * s0.dt)

/-- Lazy-implementer kernel body of part2 (source lines 233-284): reallocate
the scratch buffer if the particle count changed, convert the current
accelerations to the Jacobi frame, snapshot the Jacobi particles into the
scratch buffer (memcpy), run the WHT Eq 10.6 displacement loop, re-derive
inertial positions, re-evaluate forces, apply the kick over the whole step,
and restore the Jacobi positions from the scratch buffer.  The C realloc
keeps no useful contents because the memcpy overwrites all `N` entries. -/
def wkmKernel1 (P : Prims) (s0 : State) : State :=
  let dt := s0.dt
  let sA :=
    if s0.allocated_N ≠ s0.phys.p_jh.length then
      { s0 with allocated_N := s0.phys.p_jh.length }
    else s0
  let sB := doI2jAcc P sA
  let temp := sB.phys.p_jh
  let lp :=
    match sB.phys.p_jh, temp with
    | pj0 :: pjs, tp0 :: tps =>
      let z := whtLoop P.sqrtFn sB.G dt 1 sB.phys.particles.headI.m pjs tps
      (pj0 :: z.1, tp0 :: z.2)
    | pj, tp => (pj, tp)
  let sC := { sB with phys := { sB.phys with p_jh := lp.1 }, temp_pj := lp.2 }
  let sD := doJ2iPos P sC |> doUpdAcc P |> doKick P dt
  { sD with phys := { sD.phys with p_jh := restorePositions 0 sD.phys.p_jh sD.temp_pj } }

/-- Source: `reb_integrator_wkm_part2` (lines 181-294). -/
def reb_integrator_wkm_part2 (P : Prims) (s0 : State) : State :=
  let kernel := s0.corrector / 10
  if s0.p_jh_present = false then s0
  else
    let s :=
      if kernel = 0 then wkmKernel0 P s0
      else if kernel = 1 then wkmKernel1 P s0
      else s0
    let s2 := { s with is_synchronized := false }
    let s3 := if s2.safe_mode then reb_integrator_wkm_synchronize P s2 else s2
    { s3 with t := s3.t + s3.dt, dt_last_done := s3.dt }

/-
Claim-side descriptions.  The following definitions transcribe the operator
sequences exactly as the specification states them; the claim theorems
compare the code's traces against them.
-/

/-- From the spec (section 4.1): the stage sequence of the corrector
kernel `Z` with coefficients `a`, `b`. -/
def specZStages (a b : ℚ) : List Event :=
  [Event.kepler a, Event.j2iPos, Event.updAcc, Event.kick (-b), Event.kepler (-2 * a),
   Event.j2iPos, Event.updAcc, Event.kick b, Event.kepler a]

/-- From the spec (section 4.2): the stage sequence of the builder `C`. -/
def specCStages (a b : ℚ) : List Event :=
  [Event.kepler a, Event.com a, Event.j2iPos, Event.updAcc, Event.kick b,
   Event.kepler (-a), Event.com (-a)]

/-- From the spec (section 4.2): `Y(a,b) = C(a,b)` then `C(-a,-b)`. -/
def specYStages (a b : ℚ) : List Event :=
  specCStages a b ++ specCStages (-a) (-b)

/-- From the spec (section 4.2): the stage sequence of the builder `U`. -/
def specUStages (a b : ℚ) : List Event :=
  [Event.kepler a, Event.com a] ++ specYStages a b ++ specYStages a (-b) ++
    [Event.kepler (-a), Event.com (-a)]

/-- From the spec (section 4.3): the second corrector layer is
`U(a,b)` followed by `U(-a,b)` with `a = dt/2` and
`b = 0.03486083443891981449909050107438281205803 * dt`. -/
def specCorrector2Stages (dt : ℚ) : List Event :=
  specUStages (dt / 2) (0.03486083443891981449909050107438281205803 * dt) ++
    specUStages (-(dt / 2)) (0.03486083443891981449909050107438281205803 * dt)

/-- The trace of the 11-term antisymmetric `Z` composition: one `Z` sandwich
per coefficient pair, the sign scaling the kick coefficients. -/
def specCorrectorZTrace (P : Prims) (sign : ℚ) : List Event :=
  ((corrTermList P).map fun ab => specZStages ab.1 (sign * ab.2)).flatten

/-- From the spec (section 4.3): the full pre-step corrector driver trace for
corrector selector `c` (first layer if `c ≠ 0`, second layer if `c ≥ 2`). -/
def specPreCorrectorTrace (P : Prims) (c : ℕ) (dt : ℚ) : List Event :=
  if c ≠ 0 then
    specCorrectorZTrace P 1 ++ (if c ≥ 2 then specCorrector2Stages dt else [])
  else []

/-- From the spec (section 4.3/4.5): the post-step corrector driver trace,
with inverted sign and inverted `dt` sign. -/
def specPostCorrectorTrace (P : Prims) (c : ℕ) (dt : ℚ) : List Event :=
  if c ≠ 0 then
    specCorrectorZTrace P (-1) ++ (if c ≥ 2 then specCorrector2Stages (-dt) else [])
  else []

/-- From the spec (section 4.4): the kernel-specific leading drift of part1,
`5/8*dt` for the composition kernel and `1/2*dt` for the lazy-implementer
kernel, each an orbital drift plus a centre-of-mass drift. -/
def specLeadingDriftStages (kernel : ℕ) (dt : ℚ) : List Event :=
  if kernel = 0 then [Event.kepler (5 / 8 * dt), Event.com (5 / 8 * dt)]
  else if kernel = 1 then [Event.kepler (1 / 2 * dt), Event.com (1 / 2 * dt)]
  else []

/-- From the spec (section 4.5): the kernel-specific trailing drift of
synchronize, `3/8*dt` for the composition kernel and `1/2*dt` for the
lazy-implementer kernel. -/
def specTrailingDriftStages (kernel : ℕ) (dt : ℚ) : List Event :=
  if kernel = 0 then [Event.kepler (3 / 8 * dt), Event.com (3 / 8 * dt)]
  else if kernel = 1 then [Event.kepler (1 / 2 * dt), Event.com (1 / 2 * dt)]
  else []

/-- From the spec (section 4.6): the fixed 9-stage composition-kernel
sequence, each drift an orbital drift plus a centre-of-mass drift of the
same coefficient, and every kick except the first preceded by recomputing
inertial positions and re-evaluating accelerations. -/
def specKernel0Stages (dt : ℚ) : List Event :=
  [Event.kick (-1 / 6 * dt),
   Event.kepler (-1 / 4 * dt), Event.com (-1 / 4 * dt),
   Event.j2iPos, Event.updAcc, Event.kick (1 / 6 * dt),
   Event.kepler (1 / 8 * dt), Event.com (1 / 8 * dt),
   Event.j2iPos, Event.updAcc, Event.kick dt,
   Event.kepler (-1 / 8 * dt), Event.com (-1 / 8 * dt),
   Event.j2iPos, Event.updAcc, Event.kick (-1 / 6 * dt),
   Event.kepler (1 / 4 * dt), Event.com (1 / 4 * dt),
   Event.j2iPos, Event.updAcc, Event.kick (1 / 6 * dt)]

/-- From the spec (section 4.5): the full trace of an unsynchronized
synchronize call: trailing drift, post-step correctors, then the
position+velocity conversion of the Coordinate Buffer. -/
def specSyncTrace (P : Prims) (corrector : ℕ) (dt : ℚ) : List Event :=
  specTrailingDriftStages (corrector / 10) dt ++
    specPostCorrectorTrace P (corrector % 10) dt ++ [Event.j2iPosvel]

/-- The scalar and configuration fields of the state, bundled so that
frame conditions can be stated as a single equality. -/
structure Book where
  t : ℚ
  dt : ℚ
  dt_last_done : ℚ
  G : ℚ
  corrector : ℕ
  safe_mode : Bool
  is_synchronized : Bool
  coordinates : Coords
  keep_unsynchronized : Bool
  recalculate_coordinates_this_timestep : Bool
  gravity_ignore_terms : ℕ
  var_config_N : ℕ
  allocated_N : ℕ
  p_jh_present : Bool
  temp_pj : List Particle
deriving DecidableEq

/-- Project the non-particle-array, non-trace fields of a state. -/
def book (s : State) : Book :=
  ⟨s.t, s.dt, s.dt_last_done, s.G, s.corrector, s.safe_mode, s.is_synchronized,
   s.coordinates, s.keep_unsynchronized, s.recalculate_coordinates_this_timestep,
   s.gravity_ignore_terms, s.var_config_N, s.allocated_N, s.p_jh_present, s.temp_pj⟩

/-- A concrete trivial instantiation of the external primitive operators,
used to evaluate the embedding at concrete states. -/
def idPrims : Prims where
  keplerStep := fun _ p => p
  comStep := fun _ p => p
  interactionStep := fun _ p => p
  jacobiToInertialPos := fun p => p
  jacobiToInertialPosvel := fun p => p
  inertialToJacobiAcc := fun p => p
  updateAcceleration := fun p => p
  fromInertial := fun p => p
  toInertial := fun p => p
  whfastInit := fun p => some p
  sqrtFn := fun q => q
  corrTerms := fun _ => (1, 1)

/-- A concrete base state used by the witnesses and counterexamples. -/
def baseState : State where
  phys := ⟨[pZero], [pZero]⟩
  temp_pj := []
  t := 0
  dt := 1
  dt_last_done := 0
  G := 1
  corrector := 0
  safe_mode := false
  is_synchronized := true
  coordinates := Coords.jacobi
  keep_unsynchronized := false
  recalculate_coordinates_this_timestep := false
  gravity_ignore_terms := 0
  var_config_N := 0
  allocated_N := 0
  p_jh_present := true
  trace := []

/-
Frame and trace lemmas for the composite operators.
-/

lemma book_doKepler (P : Prims) (a : ℚ) (s : State) : book (doKepler P a s) = book s := rfl

lemma book_doCom (P : Prims) (a : ℚ) (s : State) : book (doCom P a s) = book s := rfl

lemma book_doKick (P : Prims) (b : ℚ) (s : State) : book (doKick P b s) = book s := rfl

lemma book_doJ2iPos (P : Prims) (s : State) : book (doJ2iPos P s) = book s := rfl

lemma book_doJ2iPosvel (P : Prims) (s : State) : book (doJ2iPosvel P s) = book s := rfl

lemma book_doI2jAcc (P : Prims) (s : State) : book (doI2jAcc P s) = book s := rfl

lemma book_doUpdAcc (P : Prims) (s : State) : book (doUpdAcc P s) = book s := rfl

lemma book_Z (P : Prims) (a b : ℚ) (s : State) :
    book (reb_wkm_corrector_Z P a b s) = book s := rfl

lemma book_C (P : Prims) (a b : ℚ) (s : State) :
    book (reb_wkm_apply_C P a b s) = book s := rfl

lemma book_Y (P : Prims) (a b : ℚ) (s : State) :
    book (reb_wkm_apply_Y P a b s) = book s := rfl

lemma book_U (P : Prims) (a b : ℚ) (s : State) :
    book (reb_wkm_apply_U P a b s) = book s := rfl

lemma book_corrector2 (P : Prims) (d : ℚ) (s : State) :
    book (reb_wkm_apply_corrector2 P d s) = book s := rfl

lemma book_applyCorrector (P : Prims) (inv : ℚ) (s : State) :
    book (reb_whfast_apply_corrector P inv s) = book s := by
  unfold reb_whfast_apply_corrector
  generalize corrTermList P = l
  induction l generalizing s with
  | nil => rfl
  | cons hd tl ih => rw [List.foldl_cons, ih]; exact book_Z P hd.1 (inv * hd.2) s

lemma book_preCorrectors (P : Prims) (c : ℕ) (s : State) :
    book (wkmPreCorrectors P c s) = book s := by
  unfold wkmPreCorrectors
  split
  · split
    · rw [book_corrector2, book_applyCorrector]
    · exact book_applyCorrector P 1 s
  · rfl

lemma book_postCorrectors (P : Prims) (c : ℕ) (s : State) :
    book (wkmPostCorrectors P c s) = book s := by
  unfold wkmPostCorrectors
  split
  · split
    · rw [book_corrector2, book_applyCorrector]
    · exact book_applyCorrector P (-1) s
  · rfl

lemma book_leadingDrift (P : Prims) (k : ℕ) (s : State) :
    book (wkmLeadingDrift P k s) = book s := by
  unfold wkmLeadingDrift
  split
  · rfl
  · split
    · rfl
    · rfl

lemma book_trailingDrift (P : Prims) (k : ℕ) (s : State) :
    book (wkmTrailingDrift P k s) = book s := by
  unfold wkmTrailingDrift
  split
  · rfl
  · split
    · rfl
    · rfl

lemma book_kernel0 (P : Prims) (s : State) : book (wkmKernel0 P s) = book s := rfl

lemma trace_Z (P : Prims) (a b : ℚ) (s : State) :
    (reb_wkm_corrector_Z P a b s).trace = s.trace ++ specZStages a b := by
  simp [reb_wkm_corrector_Z, doKepler, doJ2iPos, doUpdAcc, doKick, specZStages]

lemma trace_C (P : Prims) (a b : ℚ) (s : State) :
    (reb_wkm_apply_C P a b s).trace = s.trace ++ specCStages a b := by
  simp [reb_wkm_apply_C, doKepler, doCom, doJ2iPos, doUpdAcc, doKick, specCStages]

lemma trace_Y (P : Prims) (a b : ℚ) (s : State) :
    (reb_wkm_apply_Y P a b s).trace = s.trace ++ specYStages a b := by
  simp [reb_wkm_apply_Y, trace_C, specYStages]

lemma trace_U (P : Prims) (a b : ℚ) (s : State) :
    (reb_wkm_apply_U P a b s).trace = s.trace ++ specUStages a b := by
  simp [reb_wkm_apply_U, doKepler, doCom, trace_Y, specUStages]

lemma trace_corrector2 (P : Prims) (d : ℚ) (s : State) :
    (reb_wkm_apply_corrector2 P d s).trace = s.trace ++ specCorrector2Stages d := by
  have ha : (0.5 : ℚ) * d = d / 2 := by
    rw [show (0.5 : ℚ) = 1 / 2 by norm_num]
    ring
  simp only [reb_wkm_apply_corrector2, specCorrector2Stages, trace_U, ha]
  simp

lemma trace_applyCorrector (P : Prims) (inv : ℚ) (s : State) :
    (reb_whfast_apply_corrector P inv s).trace = s.trace ++ specCorrectorZTrace P inv := by
  unfold reb_whfast_apply_corrector specCorrectorZTrace
  generalize corrTermList P = l
  induction l generalizing s with
  | nil => simp
  | cons hd tl ih => simp [List.foldl_cons, ih, trace_Z]

lemma trace_preCorrectors (P : Prims) (c : ℕ) (s : State) :
    (wkmPreCorrectors P c s).trace = s.trace ++ specPreCorrectorTrace P c s.dt := by
  have hdt : (reb_whfast_apply_corrector P 1 s).dt = s.dt :=
    congrArg Book.dt (book_applyCorrector P 1 s)
  unfold wkmPreCorrectors specPreCorrectorTrace
  by_cases hc : c ≠ 0
  · rw [if_pos hc, if_pos hc]
    by_cases h2 : c ≥ 2
    · rw [if_pos h2, if_pos h2, trace_corrector2, trace_applyCorrector, hdt,
        List.append_assoc]
    · rw [if_neg h2, if_neg h2, trace_applyCorrector, List.append_nil]
  · rw [if_neg hc, if_neg hc, List.append_nil]

lemma trace_postCorrectors (P : Prims) (c : ℕ) (s : State) :
    (wkmPostCorrectors P c s).trace = s.trace ++ specPostCorrectorTrace P c s.dt := by
  have hdt : (reb_whfast_apply_corrector P (-1) s).dt = s.dt :=
    congrArg Book.dt (book_applyCorrector P (-1) s)
  unfold wkmPostCorrectors specPostCorrectorTrace
  by_cases hc : c ≠ 0
  · rw [if_pos hc, if_pos hc]
    by_cases h2 : c ≥ 2
    · rw [if_pos h2, if_pos h2, trace_corrector2, trace_applyCorrector, hdt,
        List.append_assoc]
    · rw [if_neg h2, if_neg h2, trace_applyCorrector, List.append_nil]
  · rw [if_neg hc, if_neg hc, List.append_nil]

lemma trace_leadingDrift (P : Prims) (k : ℕ) (s : State) :
    (wkmLeadingDrift P k s).trace = s.trace ++ specLeadingDriftStages k s.dt := by
  unfold wkmLeadingDrift specLeadingDriftStages
  by_cases h0 : k = 0
  · simp [h0, doKepler, doCom]
  · by_cases h1 : k = 1
    · simp [h0, h1, doKepler, doCom]
    · simp [h0, h1]

lemma trace_trailingDrift (P : Prims) (k : ℕ) (s : State) :
    (wkmTrailingDrift P k s).trace = s.trace ++ specTrailingDriftStages k s.dt := by
  unfold wkmTrailingDrift specTrailingDriftStages
  by_cases h0 : k = 0
  · simp [h0, doKepler, doCom]
  · by_cases h1 : k = 1
    · simp [h0, h1, doKepler, doCom]
    · simp [h0, h1]

lemma trace_kernel0 (P : Prims) (s : State) :
    (wkmKernel0 P s).trace = s.trace ++ specKernel0Stages s.dt := by
  simp [wkmKernel0, doKepler, doCom, doJ2iPos, doUpdAcc, doKick, specKernel0Stages]

lemma trace_doToInertial (P : Prims) (s : State) :
    (doToInertial P s).trace = s.trace ++ [Event.toInertial] := rfl

lemma book_part1_shape (P : Prims) (s : State) (ph : Phys)
    (hc : s.coordinates = Coords.jacobi)
    (hk : s.corrector / 10 ≤ 1)
    (hinit : P.whfastInit s.phys = some ph) :
    reb_integrator_wkm_part1 P s =
      doToInertial P
        (let s1 : State := { s with gravity_ignore_terms := 1, phys := ph, p_jh_present := true }
         let s2 : State :=
           if s1.safe_mode || s1.recalculate_coordinates_this_timestep then
             { doFromInertial P s1 with recalculate_coordinates_this_timestep := false }
           else s1
         if s2.is_synchronized then
           wkmLeadingDrift P (s.corrector / 10) (wkmPreCorrectors P (s.corrector % 10) s2)
         else
           doCom P s2.dt (doKepler P s2.dt s2)) := by
  have h1 : ¬ (s.var_config_N > 0 ∧ s.coordinates ≠ Coords.jacobi) := by simp [hc]
  have h2 : ¬ s.coordinates ≠ Coords.jacobi := by simp [hc]
  have h3 : ¬ s.corrector / 10 > 1 := by omega
  unfold reb_integrator_wkm_part1
  rw [if_neg h1, if_neg h2, if_neg h3, hinit]

lemma trace_part1_tail (P : Prims) (kernel c : ℕ) (s2 : State) :
    (doToInertial P
        (if s2.is_synchronized then
          wkmLeadingDrift P kernel (wkmPreCorrectors P c s2)
        else
          doCom P s2.dt (doKepler P s2.dt s2))).trace =
      s2.trace ++
        (if s2.is_synchronized then
          specPreCorrectorTrace P c s2.dt ++ specLeadingDriftStages kernel s2.dt
        else [Event.kepler s2.dt, Event.com s2.dt]) ++
      [Event.toInertial] := by
  by_cases hsy : s2.is_synchronized = true
  · rw [if_pos hsy, if_pos hsy, trace_doToInertial, trace_leadingDrift, trace_preCorrectors]
    have hd : (wkmPreCorrectors P c s2).dt = s2.dt :=
      congrArg Book.dt (book_preCorrectors P c s2)
    rw [hd]
    simp
  · rw [if_neg hsy, if_neg hsy, trace_doToInertial]
    simp [doCom, doKepler]

lemma trace_part1_accept (P : Prims) (s : State) (ph : Phys)
    (hc : s.coordinates = Coords.jacobi)
    (hk : s.corrector / 10 ≤ 1)
    (hinit : P.whfastInit s.phys = some ph) :
    (reb_integrator_wkm_part1 P s).trace =
      s.trace ++
        (if s.safe_mode || s.recalculate_coordinates_this_timestep then
          [Event.fromInertial] else []) ++
        (if s.is_synchronized then
          specPreCorrectorTrace P (s.corrector % 10) s.dt ++
            specLeadingDriftStages (s.corrector / 10) s.dt
        else [Event.kepler s.dt, Event.com s.dt]) ++
      [Event.toInertial] := by
  rw [book_part1_shape P s ph hc hk hinit]
  dsimp only
  by_cases hsm : (s.safe_mode || s.recalculate_coordinates_this_timestep) = true
  · rw [if_pos hsm, trace_part1_tail]
    simp [doFromInertial, hsm]
  · rw [if_neg hsm, trace_part1_tail]
    simp [hsm]

lemma sync_noop (P : Prims) (s : State) (h : s.is_synchronized = true) :
    reb_integrator_wkm_synchronize P s = s := by
  unfold reb_integrator_wkm_synchronize
  rw [if_pos h]

lemma sync_unsync_shape (P : Prims) (s : State) (h : s.is_synchronized = false) :
    reb_integrator_wkm_synchronize P s =
      (let s3 := doJ2iPosvel P (wkmPostCorrectors P (s.corrector % 10)
          (wkmTrailingDrift P (s.corrector / 10)
            ({ s with gravity_ignore_terms := 1 } : State)))
       if s3.keep_unsynchronized then
         { s3 with phys := { s3.phys with p_jh := s.phys.p_jh } }
       else
         { s3 with is_synchronized := true }) := by
  unfold reb_integrator_wkm_synchronize
  rw [if_neg (by simp [h])]

lemma book_syncCore (P : Prims) (c k : ℕ) (s : State) :
    book (doJ2iPosvel P (wkmPostCorrectors P c (wkmTrailingDrift P k s))) = book s := by
  rw [book_doJ2iPosvel, book_postCorrectors, book_trailingDrift]

lemma trace_syncCore (P : Prims) (c k : ℕ) (s : State) :
    (doJ2iPosvel P (wkmPostCorrectors P c (wkmTrailingDrift P k s))).trace =
      s.trace ++ specTrailingDriftStages k s.dt ++ specPostCorrectorTrace P c s.dt ++
        [Event.j2iPosvel] := by
  have hd : (wkmTrailingDrift P k s).dt = s.dt :=
    congrArg Book.dt (book_trailingDrift P k s)
  calc (doJ2iPosvel P (wkmPostCorrectors P c (wkmTrailingDrift P k s))).trace
      = (wkmPostCorrectors P c (wkmTrailingDrift P k s)).trace ++ [Event.j2iPosvel] := rfl
    _ = (wkmTrailingDrift P k s).trace ++
          specPostCorrectorTrace P c (wkmTrailingDrift P k s).dt ++ [Event.j2iPosvel] := by
        rw [trace_postCorrectors]
    _ = s.trace ++ specTrailingDriftStages k s.dt ++ specPostCorrectorTrace P c s.dt ++
          [Event.j2iPosvel] := by
        rw [trace_trailingDrift, hd]

/-- Field-level summary of an unsynchronized `synchronize()` call: the scalar
simulation fields survive, the gravity flag is forced to `1`, the
keep-unsynchronized policy decides between restoring the Coordinate Buffer
(state stays unsynchronized) and committing. -/
lemma sync_fields (P : Prims) (s : State) (h : s.is_synchronized = false) :
    (reb_integrator_wkm_synchronize P s).t = s.t ∧
    (reb_integrator_wkm_synchronize P s).dt = s.dt ∧
    (reb_integrator_wkm_synchronize P s).dt_last_done = s.dt_last_done ∧
    (reb_integrator_wkm_synchronize P s).corrector = s.corrector ∧
    (reb_integrator_wkm_synchronize P s).safe_mode = s.safe_mode ∧
    (reb_integrator_wkm_synchronize P s).keep_unsynchronized = s.keep_unsynchronized ∧
    (reb_integrator_wkm_synchronize P s).gravity_ignore_terms = 1 ∧
    (reb_integrator_wkm_synchronize P s).is_synchronized =
      (if s.keep_unsynchronized then false else true) ∧
    (s.keep_unsynchronized = true →
      (reb_integrator_wkm_synchronize P s).phys.p_jh = s.phys.p_jh) := by
  rw [sync_unsync_shape P s h]
  have hb := book_syncCore P (s.corrector % 10) (s.corrector / 10)
    ({ s with gravity_ignore_terms := 1 } : State)
  have hkeep : (doJ2iPosvel P (wkmPostCorrectors P (s.corrector % 10)
      (wkmTrailingDrift P (s.corrector / 10)
        ({ s with gravity_ignore_terms := 1 } : State)))).keep_unsynchronized =
      s.keep_unsynchronized := congrArg Book.keep_unsynchronized hb
  have ht : (doJ2iPosvel P (wkmPostCorrectors P (s.corrector % 10)
      (wkmTrailingDrift P (s.corrector / 10)
        ({ s with gravity_ignore_terms := 1 } : State)))).t = s.t :=
    congrArg Book.t hb
  have hdt : (doJ2iPosvel P (wkmPostCorrectors P (s.corrector % 10)
      (wkmTrailingDrift P (s.corrector / 10)
        ({ s with gravity_ignore_terms := 1 } : State)))).dt = s.dt :=
    congrArg Book.dt hb
  have hdtl : (doJ2iPosvel P (wkmPostCorrectors P (s.corrector % 10)
      (wkmTrailingDrift P (s.corrector / 10)
        ({ s with gravity_ignore_terms := 1 } : State)))).dt_last_done = s.dt_last_done :=
    congrArg Book.dt_last_done hb
  have hco : (doJ2iPosvel P (wkmPostCorrectors P (s.corrector % 10)
      (wkmTrailingDrift P (s.corrector / 10)
        ({ s with gravity_ignore_terms := 1 } : State)))).corrector = s.corrector :=
    congrArg Book.corrector hb
  have hsm : (doJ2iPosvel P (wkmPostCorrectors P (s.corrector % 10)
      (wkmTrailingDrift P (s.corrector / 10)
        ({ s with gravity_ignore_terms := 1 } : State)))).safe_mode = s.safe_mode :=
    congrArg Book.safe_mode hb
  have hgr : (doJ2iPosvel P (wkmPostCorrectors P (s.corrector % 10)
      (wkmTrailingDrift P (s.corrector / 10)
        ({ s with gravity_ignore_terms := 1 } : State)))).gravity_ignore_terms = 1 :=
    congrArg Book.gravity_ignore_terms hb
  have hsy : (doJ2iPosvel P (wkmPostCorrectors P (s.corrector % 10)
      (wkmTrailingDrift P (s.corrector / 10)
        ({ s with gravity_ignore_terms := 1 } : State)))).is_synchronized =
      s.is_synchronized := congrArg Book.is_synchronized hb
  dsimp only
  by_cases hk : s.keep_unsynchronized = true
  · rw [if_pos (by rw [hkeep]; exact hk), if_pos hk]
    exact ⟨ht, hdt, hdtl, hco, hsm, by rw [hkeep], hgr, by rw [hsy]; exact h, fun _ => rfl⟩
  · have hkf : s.keep_unsynchronized = false := by
      revert hk
      cases s.keep_unsynchronized <;> simp
    rw [if_neg (by rw [hkeep]; exact hk), if_neg hk]
    exact ⟨ht, hdt, hdtl, hco, hsm, by rw [hkeep], hgr, rfl, fun hcon => (by simp [hkf] at hcon)⟩

lemma trace_sync_unsync (P : Prims) (s : State) (h : s.is_synchronized = false) :
    (reb_integrator_wkm_synchronize P s).trace =
      s.trace ++ specSyncTrace P s.corrector s.dt := by
  rw [sync_unsync_shape P s h]
  dsimp only
  unfold specSyncTrace
  by_cases hk : (doJ2iPosvel P (wkmPostCorrectors P (s.corrector % 10)
      (wkmTrailingDrift P (s.corrector / 10)
        ({ s with gravity_ignore_terms := 1 } : State)))).keep_unsynchronized = true
  · rw [if_pos hk]
    show (doJ2iPosvel P (wkmPostCorrectors P (s.corrector % 10)
      (wkmTrailingDrift P (s.corrector / 10)
        ({ s with gravity_ignore_terms := 1 } : State)))).trace = _
    rw [trace_syncCore]
    simp
  · rw [if_neg hk]
    show (doJ2iPosvel P (wkmPostCorrectors P (s.corrector % 10)
      (wkmTrailingDrift P (s.corrector / 10)
        ({ s with gravity_ignore_terms := 1 } : State)))).trace = _
    rw [trace_syncCore]
    simp

lemma part2_shape (P : Prims) (s : State) (hp : s.p_jh_present = true) :
    reb_integrator_wkm_part2 P s =
      (let s1 := if s.corrector / 10 = 0 then wkmKernel0 P s
                 else if s.corrector / 10 = 1 then wkmKernel1 P s else s
       let s2 : State := { s1 with is_synchronized := false }
       let s3 := if s2.safe_mode then reb_integrator_wkm_synchronize P s2 else s2
       { s3 with t := s3.t + s3.dt, dt_last_done := s3.dt }) := by
  unfold reb_integrator_wkm_part2
  rw [if_neg (by simp [hp])]

lemma trace_part2_k0 (P : Prims) (s : State)
    (hk : s.corrector / 10 = 0) (hp : s.p_jh_present = true) (hs : s.safe_mode = false) :
    (reb_integrator_wkm_part2 P s).trace = s.trace ++ specKernel0Stages s.dt := by
  rw [part2_shape P s hp]
  dsimp only
  rw [if_pos hk]
  have hsm : (wkmKernel0 P s).safe_mode = s.safe_mode :=
    congrArg Book.safe_mode (book_kernel0 P s)
  rw [if_neg (by rw [hsm, hs]; simp)]
  exact trace_kernel0 P s

/-- From the spec (section 4.6, step (c)): the scratch-buffer entry of a
particle with Jacobi index `i` and running mass `eta`: for `i > 1` the
indirect `G*eta/r^3` acceleration term is added, otherwise the entry is
left as the plain snapshot. -/
def specCorrectedTemp (sq : ℚ → ℚ) (G : ℚ) (i : ℕ) (eta : ℚ) (p : Particle) : Particle :=
  if 1 < i then
    let r2i := 1 / (p.x * p.x + p.y * p.y + p.z * p.z)
    let ri := sq r2i
    let m3 := ri * r2i * G * eta
    { p with ax := p.ax + m3 * p.x, ay := p.ay + m3 * p.y, az := p.az + m3 * p.z }
  else p

/-- From the spec (section 4.6, step (d)): displace a Jacobi position by
`dt*dt/12` times the corrected acceleration held in the scratch entry. -/
def specDisplaced (dt : ℚ) (p tp : Particle) : Particle :=
  { p with x := p.x + dt * dt / 12 * tp.ax, y := p.y + dt * dt / 12 * tp.ay,
           z := p.z + dt * dt / 12 * tp.az }

/-- From the spec (section 4.6, steps (b)-(d)): walking the Jacobi tail
(indices `i ≥ 1`) with running mass `eta`, produce the displaced Jacobi
entries and the corrected scratch entries; the scratch entry starts as a
copy of the Jacobi entry (the memcpy snapshot). -/
def specWht (sq : ℚ → ℚ) (G dt : ℚ) : ℕ → ℚ → List Particle → List Particle × List Particle
  | _, _, [] => ([], [])
  | i, eta, p :: tl =>
    let eta2 := eta + p.m
    let tp := specCorrectedTemp sq G i eta2 p
    let rest := specWht sq G dt (i + 1) eta2 tl
    (specDisplaced dt p tp :: rest.1, tp :: rest.2)

lemma whtLoop_eq_spec (sq : ℚ → ℚ) (G dt : ℚ) :
    ∀ (l : List Particle) (i : ℕ) (eta : ℚ),
      whtLoop sq G dt i eta l l = specWht sq G dt i eta l := by
  intro l
  induction l with
  | nil => intro i eta; rfl
  | cons p tl ih =>
    intro i eta
    show whtLoop sq G dt i eta (p :: tl) (p :: tl) = _
    simp only [whtLoop, specWht, specCorrectedTemp, specDisplaced, ih]

lemma specCorrectedTemp_pos (sq : ℚ → ℚ) (G : ℚ) (i : ℕ) (eta : ℚ) (p : Particle) :
    (specCorrectedTemp sq G i eta p).x = p.x ∧ (specCorrectedTemp sq G i eta p).y = p.y ∧
      (specCorrectedTemp sq G i eta p).z = p.z ∧ (specCorrectedTemp sq G i eta p).m = p.m := by
  unfold specCorrectedTemp
  split
  · exact ⟨rfl, rfl, rfl, rfl⟩
  · exact ⟨rfl, rfl, rfl, rfl⟩

lemma specWht_len (sq : ℚ → ℚ) (G dt : ℚ) :
    ∀ (l : List Particle) (i : ℕ) (eta : ℚ),
      (specWht sq G dt i eta l).1.length = l.length ∧
        (specWht sq G dt i eta l).2.length = l.length := by
  intro l
  induction l with
  | nil => intro i eta; exact ⟨rfl, rfl⟩
  | cons p tl ih =>
    intro i eta
    simp only [specWht, List.length_cons]
    exact ⟨by rw [(ih (i + 1) (eta + p.m)).1], by rw [(ih (i + 1) (eta + p.m)).2]⟩

lemma specWht_snd_pos (sq : ℚ → ℚ) (G dt : ℚ) :
    ∀ (l : List Particle) (i : ℕ) (eta : ℚ) (j : ℕ), j < l.length →
      (((specWht sq G dt i eta l).2.getD j pZero).x = (l.getD j pZero).x ∧
       ((specWht sq G dt i eta l).2.getD j pZero).y = (l.getD j pZero).y ∧
       ((specWht sq G dt i eta l).2.getD j pZero).z = (l.getD j pZero).z) := by
  intro l
  induction l with
  | nil => intro i eta j hj; simp at hj
  | cons p tl ih =>
    intro i eta j hj
    cases j with
    | zero =>
      simp only [specWht, List.getD_cons_zero]
      exact ⟨(specCorrectedTemp_pos sq G i (eta + p.m) p).1,
        (specCorrectedTemp_pos sq G i (eta + p.m) p).2.1,
        (specCorrectedTemp_pos sq G i (eta + p.m) p).2.2.1⟩
    | succ j2 =>
      simp only [specWht, List.getD_cons_succ]
      exact ih (i + 1) (eta + p.m) j2 (by simpa using hj)

lemma restorePositions_len :
    ∀ (i : ℕ) (pjs tps : List Particle),
      (restorePositions i pjs tps).length = pjs.length := by
  intro i pjs
  induction pjs generalizing i with
  | nil => intro tps; cases tps <;> rfl
  | cons p tl ih =>
    intro tps
    cases tps with
    | nil => rfl
    | cons tp ttl => simp only [restorePositions, List.length_cons, ih]

lemma restorePositions_get :
    ∀ (pjs : List Particle) (i : ℕ) (tps : List Particle) (j : ℕ),
      1 ≤ i + j → j < pjs.length → j < tps.length →
      (((restorePositions i pjs tps).getD j pZero).x = (tps.getD j pZero).x ∧
       ((restorePositions i pjs tps).getD j pZero).y = (tps.getD j pZero).y ∧
       ((restorePositions i pjs tps).getD j pZero).z = (tps.getD j pZero).z) := by
  intro pjs
  induction pjs with
  | nil => intro i tps j h1 h2 h3; simp at h2
  | cons p tl ih =>
    intro i tps j h1 h2 h3
    cases tps with
    | nil => simp at h3
    | cons tp ttl =>
      cases j with
      | zero =>
        have hi : 1 ≤ i := by omega
        simp only [restorePositions, List.getD_cons_zero, if_pos hi]
        exact ⟨trivial, trivial, trivial⟩
      | succ j2 =>
        simp only [restorePositions, List.getD_cons_succ]
        exact ih (i + 1) ttl j2 (by omega) (by simpa using h2) (by simpa using h3)

/-- The Jacobi-frame arrays right after the acceleration transform of the
lazy-implementer kernel (source line 250). -/
def k1physA (P : Prims) (s : State) : Phys := P.inertialToJacobiAcc s.phys

/-- Claim-side description of the correction pass (spec section 4.6 (b)-(d)):
the displaced Jacobi array and the corrected scratch array, the head entry
(index 0) untouched, the tail processed by `specWht` starting at index 1
with `eta` seeded by the inertial mass of particle 0. -/
def k1lp (P : Prims) (s : State) : List Particle × List Particle :=
  match (k1physA P s).p_jh with
  | [] => ([], [])
  | pj0 :: pjs =>
    (pj0 :: (specWht P.sqrtFn s.G s.dt 1 (k1physA P s).particles.headI.m pjs).1,
     pj0 :: (specWht P.sqrtFn s.G s.dt 1 (k1physA P s).particles.headI.m pjs).2)

/-- The arrays after repositioning, force re-evaluation and the full kick of
the lazy-implementer kernel (source lines 275-277). -/
def k1kick (P : Prims) (s : State) : Phys :=
  P.interactionStep s.dt
    (P.updateAcceleration (P.jacobiToInertialPos { k1physA P s with p_jh := (k1lp P s).1 }))

lemma kernel1_eq (P : Prims) (s : State) :
    wkmKernel1 P s =
      { s with
        allocated_N := s.phys.p_jh.length,
        temp_pj := (k1lp P s).2,
        phys := { k1kick P s with
          p_jh := restorePositions 0 (k1kick P s).p_jh (k1lp P s).2 },
        trace := s.trace ++ [Event.i2jAcc, Event.j2iPos, Event.updAcc, Event.kick s.dt] } := by
  have hlp : ∀ sA : State, sA.phys = s.phys → sA.G = s.G → sA.dt = s.dt →
      sA.trace = s.trace →
      (match (P.inertialToJacobiAcc sA.phys).p_jh, (P.inertialToJacobiAcc sA.phys).p_jh with
        | pj0 :: pjs, tp0 :: tps =>
          ((pj0 :: (whtLoop P.sqrtFn sA.G sA.dt 1
              (P.inertialToJacobiAcc sA.phys).particles.headI.m pjs tps).1,
            tp0 :: (whtLoop P.sqrtFn sA.G sA.dt 1
              (P.inertialToJacobiAcc sA.phys).particles.headI.m pjs tps).2) :
              List Particle × List Particle)
        | pj, tp => (pj, tp)) = k1lp P s := by
    intro sA h1 h2 h3 h4
    rw [h1, h2, h3]
    unfold k1lp k1physA
    cases hx : (P.inertialToJacobiAcc s.phys).p_jh with
    | nil => rfl
    | cons pj0 pjs =>
      dsimp only
      rw [whtLoop_eq_spec]
  unfold wkmKernel1
  dsimp only
  by_cases ha : s.allocated_N ≠ s.phys.p_jh.length
  · rw [if_pos ha]
    dsimp only [doI2jAcc, doJ2iPos, doUpdAcc, doKick]
    rw [hlp { s with allocated_N := s.phys.p_jh.length } rfl rfl rfl rfl]
    unfold k1kick k1physA
    simp [State.mk.injEq]
  · rw [if_neg ha]
    have haeq : s.allocated_N = s.phys.p_jh.length := by
      revert ha
      by_cases h : s.allocated_N = s.phys.p_jh.length <;> simp [h]
    dsimp only [doI2jAcc, doJ2iPos, doUpdAcc, doKick]
    rw [hlp s rfl rfl rfl rfl]
    unfold k1kick k1physA
    rw [← haeq]
    simp [State.mk.injEq]

lemma gravity_leadingDrift (P : Prims) (k : ℕ) (s : State) :
    (wkmLeadingDrift P k s).gravity_ignore_terms = s.gravity_ignore_terms :=
  congrArg Book.gravity_ignore_terms (book_leadingDrift P k s)

lemma gravity_preCorrectors (P : Prims) (c : ℕ) (s : State) :
    (wkmPreCorrectors P c s).gravity_ignore_terms = s.gravity_ignore_terms :=
  congrArg Book.gravity_ignore_terms (book_preCorrectors P c s)

lemma k1lp_snd_len (P : Prims) (s : State) :
    (k1lp P s).2.length = (k1physA P s).p_jh.length := by
  unfold k1lp
  cases hx : (k1physA P s).p_jh with
  | nil => rfl
  | cons pj0 pjs =>
    simp [(specWht_len P.sqrtFn s.G s.dt pjs 1 (k1physA P s).particles.headI.m).2]

lemma k1lp_snd_pos (P : Prims) (s : State) (j : ℕ)
    (hj : j + 1 < (k1physA P s).p_jh.length) :
    (((k1lp P s).2.getD (j + 1) pZero).x = ((k1physA P s).p_jh.getD (j + 1) pZero).x ∧
     ((k1lp P s).2.getD (j + 1) pZero).y = ((k1physA P s).p_jh.getD (j + 1) pZero).y ∧
     ((k1lp P s).2.getD (j + 1) pZero).z = ((k1physA P s).p_jh.getD (j + 1) pZero).z) := by
  unfold k1lp
  cases hx : (k1physA P s).p_jh with
  | nil => rw [hx] at hj; simp at hj
  | cons pj0 pjs =>
    rw [hx] at hj
    simp only [List.getD_cons_succ]
    exact specWht_snd_pos P.sqrtFn s.G s.dt pjs 1 (k1physA P s).particles.headI.m j
      (by simpa using hj)

/-
Claim theorems.
-/

/-- C6: for every pair of coefficients `a`, `b`, the corrector kernel `Z`
applies exactly the sequence orbital drift(a), recompute inertial positions,
recompute accelerations, kick(-b), orbital drift(-2a), recompute inertial
positions, recompute accelerations, kick(b), orbital drift(a), and mutates
no state beyond the particle arrays (Coordinate Buffer and the inertial
array the recomputations write) and the trace. -/
theorem C6_correctorZ_contract (P : Prims) (a b : ℚ) (s : State) :
    (reb_wkm_corrector_Z P a b s).trace = s.trace ++ specZStages a b ∧
    book (reb_wkm_corrector_Z P a b s) = book s :=
  ⟨trace_Z P a b s, book_Z P a b s⟩

/-- C3: with kernel 0 and the Coordinate Buffer present, `step_part2()`
applies exactly the fixed 9-stage sequence of kicks and drifts of
`specKernel0Stages`, each drift an orbital plus centre-of-mass drift of the
same coefficient and every kick except the first preceded by a reposition
and a force re-evaluation. -/
theorem C3_kernel0_sequence (P : Prims) (s : State)
    (hk : s.corrector / 10 = 0) (hp : s.p_jh_present = true) (hs : s.safe_mode = false) :
    (reb_integrator_wkm_part2 P s).trace = s.trace ++ specKernel0Stages s.dt :=
  trace_part2_k0 P s hk hp hs

/-- Witness for C3 at a concrete two-particle state. -/
theorem C3_kernel0_sequence_witness :
    (reb_integrator_wkm_part2 idPrims baseState).trace =
      baseState.trace ++ specKernel0Stages baseState.dt :=
  C3_kernel0_sequence idPrims baseState rfl rfl rfl

/-- C10: every call of `step_part1()` sets the force-evaluator flag
`gravity_ignore_terms` to 1, also on the rejected configurations. -/
theorem C10_gravity_flag (P : Prims) (s : State) :
    (reb_integrator_wkm_part1 P s).gravity_ignore_terms = 1 := by
  have tail : ∀ (kernel c : ℕ) (s2 : State),
      (doToInertial P
        (if s2.is_synchronized then
          wkmLeadingDrift P kernel (wkmPreCorrectors P c s2)
        else
          doCom P s2.dt (doKepler P s2.dt s2))).gravity_ignore_terms =
        s2.gravity_ignore_terms := by
    intro kernel c s2
    by_cases h : s2.is_synchronized = true
    · rw [if_pos h]
      show (wkmLeadingDrift P kernel (wkmPreCorrectors P c s2)).gravity_ignore_terms = _
      rw [gravity_leadingDrift, gravity_preCorrectors]
    · rw [if_neg h]
      rfl
  unfold reb_integrator_wkm_part1
  dsimp only
  split
  · rfl
  · split
    · rfl
    · split
      · rfl
      · cases hinit : P.whfastInit s.phys with
        | none => rfl
        | some ph =>
          rw [tail]
          split
          · rfl
          · rfl

/-- A rejected configuration: kernel digit 2 (corrector field 20) with Jacobi
coordinates; the flag starts at 0. -/
def c1State : State := { baseState with corrector := 20 }

/-- C1 counterexample: the rejected `step_part1()` call mutates the
simulation state after all: the force-evaluator flag changes from 0 to 1,
so not every field is left unchanged. -/
theorem C1_rejection_counterexample :
    ¬ ((reb_integrator_wkm_part1 idPrims c1State).gravity_ignore_terms =
        c1State.gravity_ignore_terms) := by decide

/-- C1 amended: a configuration-error rejection of `step_part1()` reports
exactly one error and leaves every field unchanged except
`gravity_ignore_terms`, which is set to 1; in particular no drift or kick
is applied and `t`, `dt_last_done` and the particle arrays are untouched. -/
theorem C1_rejection_amended (P : Prims) (s : State)
    (h : (s.var_config_N > 0 ∧ s.coordinates ≠ Coords.jacobi) ∨
         s.coordinates ≠ Coords.jacobi ∨ s.corrector / 10 > 1) :
    ∃ k, reb_integrator_wkm_part1 P s =
      { s with gravity_ignore_terms := 1,
               trace := s.trace ++ [Event.errorReport k] } := by
  unfold reb_integrator_wkm_part1
  dsimp only
  by_cases h1 : s.var_config_N > 0 ∧ s.coordinates ≠ Coords.jacobi
  · rw [if_pos h1]
    exact ⟨0, rfl⟩
  · rw [if_neg h1]
    by_cases h2 : s.coordinates ≠ Coords.jacobi
    · rw [if_pos h2]
      exact ⟨1, rfl⟩
    · rw [if_neg h2]
      have h3 : s.corrector / 10 > 1 := by tauto
      rw [if_pos h3]
      exact ⟨2, rfl⟩

/-- Witness for the amended C1 at the concrete rejected state. -/
theorem C1_rejection_amended_witness :
    ∃ k, reb_integrator_wkm_part1 idPrims c1State =
      { c1State with gravity_ignore_terms := 1,
                     trace := c1State.trace ++ [Event.errorReport k] } :=
  C1_rejection_amended idPrims c1State (Or.inr (Or.inr (by decide)))

/-- An unsynchronized state with the keep-unsynchronized policy set. -/
def c2State : State :=
  { baseState with is_synchronized := false, keep_unsynchronized := true }

/-- C2 counterexample: a keep-unsynchronized `synchronize()` call does not
leave every other field unchanged: `gravity_ignore_terms` changes from 0
to 1. -/
theorem C2_keep_counterexample :
    ¬ ((reb_integrator_wkm_synchronize idPrims c2State).gravity_ignore_terms =
        c2State.gravity_ignore_terms) := by decide

/-- C2 amended: a keep-unsynchronized `synchronize()` call restores the
Coordinate Buffer exactly, leaves `is_synchronized` at 0 and the scalar
simulation fields (`t`, `dt`, `dt_last_done`, configuration) unchanged; it
does set `gravity_ignore_terms` to 1, and the inertial particle array
receives the synchronized output. -/
theorem C2_keep_amended (P : Prims) (s : State)
    (h1 : s.is_synchronized = false) (h2 : s.keep_unsynchronized = true) :
    (reb_integrator_wkm_synchronize P s).phys.p_jh = s.phys.p_jh ∧
    (reb_integrator_wkm_synchronize P s).is_synchronized = false ∧
    (reb_integrator_wkm_synchronize P s).t = s.t ∧
    (reb_integrator_wkm_synchronize P s).dt = s.dt ∧
    (reb_integrator_wkm_synchronize P s).dt_last_done = s.dt_last_done ∧
    (reb_integrator_wkm_synchronize P s).corrector = s.corrector ∧
    (reb_integrator_wkm_synchronize P s).gravity_ignore_terms = 1 := by
  obtain ⟨ht, hdt, hdtl, hco, hsm, hkeep, hgr, hsy, hpj⟩ := sync_fields P s h1
  refine ⟨hpj h2, ?_, ht, hdt, hdtl, hco, hgr⟩
  rw [hsy, h2]
  simp

/-- Witness for the amended C2 at the concrete keep-unsynchronized state. -/
theorem C2_keep_amended_witness :
    (reb_integrator_wkm_synchronize idPrims c2State).phys.p_jh = c2State.phys.p_jh ∧
    (reb_integrator_wkm_synchronize idPrims c2State).is_synchronized = false ∧
    (reb_integrator_wkm_synchronize idPrims c2State).t = c2State.t ∧
    (reb_integrator_wkm_synchronize idPrims c2State).dt = c2State.dt ∧
    (reb_integrator_wkm_synchronize idPrims c2State).dt_last_done = c2State.dt_last_done ∧
    (reb_integrator_wkm_synchronize idPrims c2State).corrector = c2State.corrector ∧
    (reb_integrator_wkm_synchronize idPrims c2State).gravity_ignore_terms = 1 :=
  C2_keep_amended idPrims c2State rfl rfl

/-- C8: `synchronize()` is a no-op when already synchronized; otherwise it
applies the kernel's trailing drift (3/8*dt orbital+com for kernel 0,
1/2*dt for kernel 1), then the post-step corrector layer(s) with inverted
sign and inverted dt sign, converts the Coordinate Buffer to inertial
positions and velocities, and commits to SYNCHRONIZED exactly when the
keep-unsynchronized policy is not set. -/
theorem C8_synchronize_contract (P : Prims) (s : State) (_hk : s.corrector / 10 ≤ 1) :
    (s.is_synchronized = true → reb_integrator_wkm_synchronize P s = s) ∧
    (s.is_synchronized = false →
      (reb_integrator_wkm_synchronize P s).trace =
        s.trace ++ specSyncTrace P s.corrector s.dt ∧
      (s.keep_unsynchronized = false →
        (reb_integrator_wkm_synchronize P s).is_synchronized = true)) := by
  constructor
  · exact fun h => sync_noop P s h
  · intro h
    refine ⟨trace_sync_unsync P s h, fun hkeep => ?_⟩
    obtain ⟨_, _, _, _, _, _, _, hsy, _⟩ := sync_fields P s h
    rw [hsy, hkeep]
    simp

/-- Witness for C8: the no-op case at the synchronized base state, and the
full trace at the unsynchronized keep-unsynchronized state. -/
theorem C8_synchronize_contract_witness :
    reb_integrator_wkm_synchronize idPrims baseState = baseState ∧
    (reb_integrator_wkm_synchronize idPrims c2State).trace =
      c2State.trace ++ specSyncTrace idPrims c2State.corrector c2State.dt :=
  ⟨(C8_synchronize_contract idPrims baseState (by decide)).1 rfl,
   ((C8_synchronize_contract idPrims c2State (by decide)).2 rfl).1⟩

/-- C5: the Corrector Driver's two layers.  The second layer is exactly
`U(a,b)` then `U(-a,b)` with `a = dt/2` and the tabulated coefficient times
`dt` as `b`; when the corrector selector is nonzero, `step_part1()` applies
the 11-term antisymmetric Z-composition with sign +1 and then, for
selector >= 2, the second layer with `+dt`, while `synchronize()` applies
the Z-composition with sign -1 and the second layer with `-dt`. -/
theorem C5_corrector_driver (P : Prims) :
    (∀ (d : ℚ) (s : State),
      reb_wkm_apply_corrector2 P d s =
        reb_wkm_apply_U P (-(d / 2))
          (0.03486083443891981449909050107438281205803 * d)
          (reb_wkm_apply_U P (d / 2)
            (0.03486083443891981449909050107438281205803 * d) s)) ∧
    (∀ (s : State) (ph : Phys), s.coordinates = Coords.jacobi →
      s.corrector / 10 ≤ 1 → P.whfastInit s.phys = some ph →
      s.is_synchronized = true → s.corrector % 10 ≠ 0 →
      (reb_integrator_wkm_part1 P s).trace =
        s.trace ++
          (if s.safe_mode || s.recalculate_coordinates_this_timestep then
            [Event.fromInertial] else []) ++
          specCorrectorZTrace P 1 ++
          (if s.corrector % 10 ≥ 2 then specCorrector2Stages s.dt else []) ++
          specLeadingDriftStages (s.corrector / 10) s.dt ++ [Event.toInertial]) ∧
    (∀ s : State, s.is_synchronized = false → s.corrector % 10 ≠ 0 →
      (reb_integrator_wkm_synchronize P s).trace =
        s.trace ++ specTrailingDriftStages (s.corrector / 10) s.dt ++
          specCorrectorZTrace P (-1) ++
          (if s.corrector % 10 ≥ 2 then specCorrector2Stages (-s.dt) else []) ++
          [Event.j2iPosvel]) := by
  refine ⟨?_, ?_, ?_⟩
  · intro d s
    have ha : (0.5 : ℚ) * d = d / 2 := by
      rw [show (0.5 : ℚ) = 1 / 2 by norm_num]
      ring
    unfold reb_wkm_apply_corrector2
    rw [ha]
  · intro s ph hc hk hinit hsy hcor
    rw [trace_part1_accept P s ph hc hk hinit, if_pos hsy]
    unfold specPreCorrectorTrace
    rw [if_pos hcor]
    simp [List.append_assoc]
  · intro s hsy hcor
    rw [trace_sync_unsync P s hsy]
    unfold specSyncTrace specPostCorrectorTrace
    rw [if_pos hcor]
    simp [List.append_assoc]


/-- A synchronized state with corrector selector 2 (both layers). -/
def c5Pre : State := { baseState with corrector := 2 }

/-- An unsynchronized state with corrector selector 2 (both layers). -/
def c5Post : State := { baseState with corrector := 2, is_synchronized := false }

/-- Witness for C5: the three parts at concrete inputs (corrector
selector 2, so both layers run). -/
theorem C5_corrector_driver_witness :
    (reb_wkm_apply_corrector2 idPrims 1 baseState =
      reb_wkm_apply_U idPrims (-(1 / 2))
        (0.03486083443891981449909050107438281205803 * 1)
        (reb_wkm_apply_U idPrims (1 / 2)
          (0.03486083443891981449909050107438281205803 * 1) baseState)) ∧
    ((reb_integrator_wkm_part1 idPrims c5Pre).trace =
      c5Pre.trace ++
        (if c5Pre.safe_mode || c5Pre.recalculate_coordinates_this_timestep then
          [Event.fromInertial] else []) ++
        specCorrectorZTrace idPrims 1 ++
        (if c5Pre.corrector % 10 ≥ 2 then specCorrector2Stages c5Pre.dt else []) ++
        specLeadingDriftStages (c5Pre.corrector / 10) c5Pre.dt ++ [Event.toInertial]) ∧
    ((reb_integrator_wkm_synchronize idPrims c5Post).trace =
      c5Post.trace ++ specTrailingDriftStages (c5Post.corrector / 10) c5Post.dt ++
        specCorrectorZTrace idPrims (-1) ++
        (if c5Post.corrector % 10 ≥ 2 then specCorrector2Stages (-c5Post.dt) else []) ++
        [Event.j2iPosvel]) :=
  ⟨(C5_corrector_driver idPrims).1 1 baseState,
   (C5_corrector_driver idPrims).2.1 c5Pre baseState.phys rfl (by decide) rfl rfl (by decide),
   (C5_corrector_driver idPrims).2.2 c5Post rfl (by decide)⟩

/-- C7: after the preconditions pass, `step_part1()` either (synchronized)
applies the pre-step corrector layer(s) and the kernel-specific leading
drift (5/8*dt orbital+com for kernel 0, 1/2*dt for kernel 1), or
(unsynchronized) skips the correctors and applies a single full `dt`
orbital+com drift; in both cases the Coordinate Buffer is converted back
to inertial form last. -/
theorem C7_part1_branches (P : Prims) (s : State) (ph : Phys)
    (hc : s.coordinates = Coords.jacobi) (hk : s.corrector / 10 ≤ 1)
    (hinit : P.whfastInit s.phys = some ph) :
    (s.is_synchronized = true →
      (reb_integrator_wkm_part1 P s).trace =
        s.trace ++
          (if s.safe_mode || s.recalculate_coordinates_this_timestep then
            [Event.fromInertial] else []) ++
          (specPreCorrectorTrace P (s.corrector % 10) s.dt ++
            specLeadingDriftStages (s.corrector / 10) s.dt) ++
          [Event.toInertial]) ∧
    (s.is_synchronized = false →
      (reb_integrator_wkm_part1 P s).trace =
        s.trace ++
          (if s.safe_mode || s.recalculate_coordinates_this_timestep then
            [Event.fromInertial] else []) ++
          [Event.kepler s.dt, Event.com s.dt, Event.toInertial]) := by
  constructor
  · intro hsy
    rw [trace_part1_accept P s ph hc hk hinit, if_pos hsy]
  · intro hsy
    rw [trace_part1_accept P s ph hc hk hinit,
      if_neg (show ¬ s.is_synchronized = true by simp [hsy])]
    simp [List.append_assoc]

/-- A synchronized state with corrector selector 1. -/
def c7Sync : State := { baseState with corrector := 1 }

/-- An unsynchronized state with corrector selector 1. -/
def c7Unsync : State := { baseState with corrector := 1, is_synchronized := false }

/-- Witness for C7: both branches at concrete states (kernel 0,
corrector selector 1). -/
theorem C7_part1_branches_witness :
    ((reb_integrator_wkm_part1 idPrims c7Sync).trace =
      c7Sync.trace ++
        (if c7Sync.safe_mode || c7Sync.recalculate_coordinates_this_timestep then
          [Event.fromInertial] else []) ++
        (specPreCorrectorTrace idPrims (c7Sync.corrector % 10) c7Sync.dt ++
          specLeadingDriftStages (c7Sync.corrector / 10) c7Sync.dt) ++
        [Event.toInertial]) ∧
    ((reb_integrator_wkm_part1 idPrims c7Unsync).trace =
      c7Unsync.trace ++
        (if c7Unsync.safe_mode || c7Unsync.recalculate_coordinates_this_timestep then
          [Event.fromInertial] else []) ++
        [Event.kepler c7Unsync.dt, Event.com c7Unsync.dt, Event.toInertial]) :=
  ⟨(C7_part1_branches idPrims c7Sync baseState.phys rfl (by decide) rfl).1 rfl,
   (C7_part1_branches idPrims c7Unsync baseState.phys rfl (by decide) rfl).2 rfl⟩

/-- Recognizer for kick events in a trace. -/
def isKickEv : Event → Bool
  | Event.kick _ => true
  | _ => false

/-- A lazy-implementer-kernel state (corrector field 10) with three
particles. -/
def c4State : State :=
  { baseState with
    corrector := 10
    phys := ⟨[pZero, pZero, pZero], [pZero, pZero, pZero]⟩ }

/-- C4 counterexample: the claim describes an initial kick from the
already-computed accelerations followed by the full kick inside the
correction pass, i.e. at least two kick applications; the lazy-implementer
kernel performs exactly one kick. -/
theorem C4_single_kick_counterexample :
    ¬ (2 ≤ (reb_integrator_wkm_part2 idPrims c4State).trace.countP isKickEv) := by
  decide

lemma trace_part2_k1_pre (P : Prims) (s : State)
    (hk : s.corrector / 10 = 1) (hp : s.p_jh_present = true) (hs : s.safe_mode = false) :
    reb_integrator_wkm_part2 P s =
      (let s1 : State :=
        { s with
          allocated_N := s.phys.p_jh.length,
          temp_pj := (k1lp P s).2,
          phys := { k1kick P s with
            p_jh := restorePositions 0 (k1kick P s).p_jh (k1lp P s).2 },
          trace := s.trace ++ [Event.i2jAcc, Event.j2iPos, Event.updAcc, Event.kick s.dt] }
       { s1 with is_synchronized := false, t := s1.t + s1.dt, dt_last_done := s1.dt }) := by
  rw [part2_shape P s hp]
  dsimp only
  rw [if_neg (show ¬ s.corrector / 10 = 0 by omega), if_pos hk, kernel1_eq]
  dsimp only
  rw [if_neg (show ¬ s.safe_mode = true by simp [hs])]

/-- C4 amended: with kernel 1 and the Coordinate Buffer present,
`step_part2()` converts the already-computed accelerations to the Jacobi
frame, snapshots the Jacobi particles into the scratch buffer, applies the
WHT Eq 10.6 correction (running mass `eta`, indirect `G*eta/r^3` term for
indices > 1) and the `dt*dt/12` displacement, re-derives inertial
positions, re-evaluates forces, applies exactly one kick -- the full kick
over the whole step, after the force re-evaluation, with no initial kick
before the correction pass -- and finally restores the Jacobi positions
(indices >= 1) from the scratch buffer. -/
theorem C4_lazy_kernel_amended (P : Prims) (s : State)
    (hk : s.corrector / 10 = 1) (hp : s.p_jh_present = true) (hs : s.safe_mode = false) :
    (reb_integrator_wkm_part2 P s).trace =
      s.trace ++ [Event.i2jAcc, Event.j2iPos, Event.updAcc, Event.kick s.dt] ∧
    (reb_integrator_wkm_part2 P s).temp_pj = (k1lp P s).2 ∧
    (reb_integrator_wkm_part2 P s).phys =
      { k1kick P s with
        p_jh := restorePositions 0 (k1kick P s).p_jh (k1lp P s).2 } ∧
    (∀ j : ℕ, j + 1 < (k1kick P s).p_jh.length → j + 1 < (k1physA P s).p_jh.length →
      (((reb_integrator_wkm_part2 P s).phys.p_jh.getD (j + 1) pZero).x =
          ((k1physA P s).p_jh.getD (j + 1) pZero).x ∧
       ((reb_integrator_wkm_part2 P s).phys.p_jh.getD (j + 1) pZero).y =
          ((k1physA P s).p_jh.getD (j + 1) pZero).y ∧
       ((reb_integrator_wkm_part2 P s).phys.p_jh.getD (j + 1) pZero).z =
          ((k1physA P s).p_jh.getD (j + 1) pZero).z)) := by
  have hsh := trace_part2_k1_pre P s hk hp hs
  refine ⟨by rw [hsh], by rw [hsh], by rw [hsh], ?_⟩
  intro j h1 h2
  have hlen2 : j + 1 < (k1lp P s).2.length := by
    rw [k1lp_snd_len]
    exact h2
  have hres := restorePositions_get ((k1kick P s).p_jh) 0 ((k1lp P s).2) (j + 1)
    (by omega) h1 hlen2
  have hpos := k1lp_snd_pos P s j h2
  have hpj : (reb_integrator_wkm_part2 P s).phys.p_jh =
      restorePositions 0 (k1kick P s).p_jh (k1lp P s).2 := by
    rw [hsh]
  rw [hpj]
  exact ⟨hres.1.trans hpos.1, hres.2.1.trans hpos.2.1, hres.2.2.trans hpos.2.2⟩

set_option maxRecDepth 4000 in
/-- Witness for the amended C4 at the concrete three-particle state. -/
theorem C4_lazy_kernel_amended_witness :
    (reb_integrator_wkm_part2 idPrims c4State).trace =
      c4State.trace ++
        [Event.i2jAcc, Event.j2iPos, Event.updAcc, Event.kick c4State.dt] ∧
    (reb_integrator_wkm_part2 idPrims c4State).temp_pj = (k1lp idPrims c4State).2 ∧
    (reb_integrator_wkm_part2 idPrims c4State).phys =
      { k1kick idPrims c4State with
        p_jh := restorePositions 0 (k1kick idPrims c4State).p_jh
          (k1lp idPrims c4State).2 } ∧
    (∀ j : ℕ, j + 1 < (k1kick idPrims c4State).p_jh.length →
      j + 1 < (k1physA idPrims c4State).p_jh.length →
      (((reb_integrator_wkm_part2 idPrims c4State).phys.p_jh.getD (j + 1) pZero).x =
          ((k1physA idPrims c4State).p_jh.getD (j + 1) pZero).x ∧
       ((reb_integrator_wkm_part2 idPrims c4State).phys.p_jh.getD (j + 1) pZero).y =
          ((k1physA idPrims c4State).p_jh.getD (j + 1) pZero).y ∧
       ((reb_integrator_wkm_part2 idPrims c4State).phys.p_jh.getD (j + 1) pZero).z =
          ((k1physA idPrims c4State).p_jh.getD (j + 1) pZero).z)) :=
  C4_lazy_kernel_amended idPrims c4State (by norm_num [c4State, baseState]) rfl rfl


/-- A state whose kernel digit is 2 with corrector digit 1 and safe mode on:
the configuration C9 talks about. -/
def c9State : State := { baseState with corrector := 21, safe_mode := true }

set_option maxRecDepth 100000 in
/-- C9 counterexample: with kernel digit 2, corrector digit 1 and safe mode
set, `step_part2()` does perform kicks (and drifts and force evaluations):
the safe-mode synchronize still runs the post-step corrector layer. -/
theorem C9_kernel_guard_counterexample :
    ¬ ((reb_integrator_wkm_part2 idPrims c9State).trace.countP isKickEv = 0) := by
  decide

/-- C9 amended: with the Coordinate Buffer present but the kernel digit
greater than 1, `step_part2()` performs no kernel stage itself; it still
marks the state UNSYNCHRONIZED, advances `t` by `dt` and records
`dt_last_done = dt`.  Without safe mode no operator at all is applied; with
safe mode the synchronize call still runs, applying no trailing drift (the
kernel digit matches neither kernel) but the full post-step corrector layer
when the corrector digit is nonzero -- including its drifts, kicks and
force evaluations -- and the position+velocity conversion. -/
theorem C9_kernel_guard_amended (P : Prims) (s : State)
    (hk : 1 < s.corrector / 10) (hp : s.p_jh_present = true) :
    (reb_integrator_wkm_part2 P s).t = s.t + s.dt ∧
    (reb_integrator_wkm_part2 P s).dt_last_done = s.dt ∧
    (s.safe_mode = false →
      (reb_integrator_wkm_part2 P s).trace = s.trace ∧
      (reb_integrator_wkm_part2 P s).is_synchronized = false) ∧
    (s.safe_mode = true →
      (reb_integrator_wkm_part2 P s).trace =
        s.trace ++ specSyncTrace P s.corrector s.dt ∧
      (s.keep_unsynchronized = false →
        (reb_integrator_wkm_part2 P s).is_synchronized = true)) := by
  rw [part2_shape P s hp]
  dsimp only
  rw [if_neg (show ¬ s.corrector / 10 = 0 by omega),
    if_neg (show ¬ s.corrector / 10 = 1 by omega)]
  by_cases hs : s.safe_mode = true
  · rw [if_pos hs]
    have h0 : ({ s with is_synchronized := false } : State).is_synchronized = false := rfl
    obtain ⟨ht, hdt, hdtl, hco, hsm, hkeep, hgr, hsy, hpj⟩ :=
      sync_fields P { s with is_synchronized := false } h0
    have htr := trace_sync_unsync P { s with is_synchronized := false } h0
    refine ⟨by rw [ht, hdt], by rw [hdt], fun hcon => absurd hs (by simp [hcon]), fun _ => ?_⟩
    refine ⟨htr, fun hkf => ?_⟩
    rw [hsy]
    have : ({ s with is_synchronized := false } : State).keep_unsynchronized = false := hkf
    rw [this]
    simp
  · rw [if_neg hs]
    have hsf : s.safe_mode = false := by
      revert hs
      cases s.safe_mode <;> simp
    exact ⟨rfl, rfl, fun _ => ⟨rfl, rfl⟩, fun hcon => absurd hcon (by simp [hsf])⟩

/-- Witness for the amended C9 at the concrete kernel-digit-2 state. -/
theorem C9_kernel_guard_amended_witness :
    (reb_integrator_wkm_part2 idPrims c9State).t = c9State.t + c9State.dt ∧
    (reb_integrator_wkm_part2 idPrims c9State).dt_last_done = c9State.dt ∧
    (c9State.safe_mode = false →
      (reb_integrator_wkm_part2 idPrims c9State).trace = c9State.trace ∧
      (reb_integrator_wkm_part2 idPrims c9State).is_synchronized = false) ∧
    (c9State.safe_mode = true →
      (reb_integrator_wkm_part2 idPrims c9State).trace =
        c9State.trace ++ specSyncTrace idPrims c9State.corrector c9State.dt ∧
      (c9State.keep_unsynchronized = false →
        (reb_integrator_wkm_part2 idPrims c9State).is_synchronized = true)) :=
  C9_kernel_guard_amended idPrims c9State (by decide) rfl
